import Mathlib

/-!
Shallow embedding of the job-portal backend (Express + Mongoose) and proofs
about its authorization, uniqueness and cascade behaviour.

Documents are modelled as records, collections as lists, and each request
handler as a pure function from the database state (plus the request data)
to an `Except` of the thrown error or the success payload together with the
new database state.  Mongoose queries are translated literally:
`Model.findById x` becomes `List.find? (fun d => d.id == x)`,
`Model.findOne {f: v}` becomes `List.find?` on the corresponding predicate,
`Model.deleteMany q` becomes `List.filter` by the negated predicate, and
`Model.findByIdAndDelete x` erases the first document with that id.
-/

namespace JobPortal

/-- Document identifiers are plain strings (Mongo ObjectIds compared via
the string produced by toString in the source). -/
abbrev Id := String

inductive Role
  | admin
  | employer
  | candidate
deriving DecidableEq, Repr

inductive JobStatus
  | Active
  | Inactive
deriving DecidableEq, Repr

inductive AppStatus
  | pending
  | accepted
  | rejected
deriving DecidableEq, Repr

/-- User document, after src/models/User.ts (UserSchema). -/
structure UserR where
  id : Id
  email : String
  password : String
  role : Role
  isBanned : Bool
deriving DecidableEq, Repr

/-- Job document, after src/models/Job.ts (JobSchema); `createdAt` models the
timestamps option used by the public listing's sort. -/
structure JobR where
  id : Id
  title : String
  description : String
  companyName : String
  location : String
  jobType : String
  salaryRange : Option (Nat × Nat)
  skills : List String
  createdBy : Id
  jobStatus : JobStatus
  createdAt : Nat
deriving DecidableEq, Repr

/-- Application document, after the ApplicationSchema in src/models (jobId,
candidateId required; coverLetter and resume plain optional String paths;
applicationStatus defaults to pending; appliedAt defaults to now). -/
structure AppR where
  id : Id
  jobId : Id
  candidateId : Id
  coverLetter : Option String
  resume : Option String
  applicationStatus : AppStatus
  appliedAt : Nat
deriving DecidableEq, Repr

/-- The three persisted collections. -/
structure DB where
  users : List UserR
  jobs : List JobR
  apps : List AppR
deriving DecidableEq, Repr

/-- Error taxonomy, after src/utils/errors.ts. -/
inductive Err
  | ValidationError (msg : String)
  | AuthenticationError (msg : String)
  | AuthorizationError (msg : String)
  | NotFoundError (msg : String)
  | ConflictError (msg : String)
deriving DecidableEq, Repr

/-- JavaScript truthiness of an optional string request-body field: both a
missing field (undefined) and the empty string are falsy, so guards of the
form if (!x) reject exactly these. -/
def jsTruthy : Option String → Bool
  | none => false
  | some s => s ≠ ""

/-- Request body of POST /api/applications/apply. -/
structure ApplyBody where
  jobId : Option String
  coverLetter : Option String
  resume : Option String
deriving DecidableEq, Repr

/-- The applyForJob handler, src/controllers/applicationController.ts lines
13-67, translated clause by clause: required-field guards on jobId,
coverLetter and resume; candidate role gate; Job.findById existence check;
jobStatus Active check; Application.findOne duplicate pre-check; then the
insert of a new Application whose applicationStatus defaults to pending and
whose appliedAt defaults to the current time `now`. -/
def applyForJob (db : DB) (user : UserR) (body : ApplyBody) (now : Nat)
    (newId : Id) : Except Err (DB × AppR) :=
  if ¬ jsTruthy body.jobId then
    .error (.ValidationError "Job ID is required")
  else if ¬ jsTruthy body.coverLetter then
    .error (.ValidationError "Cover letter is required")
  else if ¬ jsTruthy body.resume then
    .error (.ValidationError "Resume is required")
  else if user.role ≠ Role.candidate then
    .error (.AuthorizationError "Only candidates can apply for jobs")
  else
    let jobId := body.jobId.getD ""
    match db.jobs.find? (fun j => j.id == jobId) with
    | none => .error (.NotFoundError "Job not found")
    | some job =>
      if job.jobStatus ≠ JobStatus.Active then
        .error (.ValidationError "Job is not active")
      else
        match db.apps.find? (fun a => a.jobId == jobId && a.candidateId == user.id) with
        | some _ => .error (.ConflictError "Already applied for this job")
        | none =>
          let app : AppR :=
            { id := newId, jobId := jobId, candidateId := user.id
              coverLetter := body.coverLetter, resume := body.resume
              applicationStatus := AppStatus.pending, appliedAt := now }
          .ok ({ db with apps := db.apps ++ [app] }, app)

/-- C1: for an authenticated candidate submitting a well-formed application
body, the three checks fire in the specified way — nonexistent job gives
NotFoundError, inactive job gives ValidationError, an existing
(jobId, candidateId) application gives ConflictError — and only when all
three pass is a new Application appended, with applicationStatus pending and
appliedAt equal to the current time, users and jobs (and the existing
applications) left unchanged. -/
theorem applyForJob_three_checks_then_create (db : DB) (user : UserR)
    (jid cl rs : String) (now : Nat) (newId : Id)
    (hjid : jid ≠ "") (hcl : cl ≠ "") (hrs : rs ≠ "")
    (hrole : user.role = Role.candidate) :
    (db.jobs.find? (fun j => j.id == jid) = none →
      applyForJob db user ⟨some jid, some cl, some rs⟩ now newId
        = .error (.NotFoundError "Job not found")) ∧
    (∀ job, db.jobs.find? (fun j => j.id == jid) = some job →
      job.jobStatus ≠ JobStatus.Active →
      applyForJob db user ⟨some jid, some cl, some rs⟩ now newId
        = .error (.ValidationError "Job is not active")) ∧
    (∀ job dup, db.jobs.find? (fun j => j.id == jid) = some job →
      job.jobStatus = JobStatus.Active →
      db.apps.find? (fun a => a.jobId == jid && a.candidateId == user.id) = some dup →
      applyForJob db user ⟨some jid, some cl, some rs⟩ now newId
        = .error (.ConflictError "Already applied for this job")) ∧
    (∀ job, db.jobs.find? (fun j => j.id == jid) = some job →
      job.jobStatus = JobStatus.Active →
      db.apps.find? (fun a => a.jobId == jid && a.candidateId == user.id) = none →
      applyForJob db user ⟨some jid, some cl, some rs⟩ now newId
        = .ok ({ users := db.users, jobs := db.jobs
                 apps := db.apps ++ [⟨newId, jid, user.id, some cl, some rs,
                                      AppStatus.pending, now⟩] },
               ⟨newId, jid, user.id, some cl, some rs, AppStatus.pending, now⟩)) := by
  refine ⟨?_, ?_, ?_, ?_⟩
  · intro hfind
    simp [applyForJob, jsTruthy, hjid, hcl, hrs, hrole, hfind]
  · intro job hfind hstat
    simp [applyForJob, jsTruthy, hjid, hcl, hrs, hrole, hfind, hstat]
  · intro job dup hfind hstat hdup
    simp [applyForJob, jsTruthy, hjid, hcl, hrs, hrole, hfind, hstat, hdup]
  · intro job hfind hstat hdup
    simp [applyForJob, jsTruthy, hjid, hcl, hrs, hrole, hfind, hstat, hdup]

/-- Concrete data exercising the apply flow. -/
def jobW : JobR :=
  { id := "j1", title := "Backend Engineer", description := "Node work"
    companyName := "Acme", location := "Dhaka", jobType := "full-time"
    salaryRange := none, skills := [], createdBy := "e1"
    jobStatus := JobStatus.Active, createdAt := 1 }

def candW : UserR :=
  { id := "c1", email := "c@x.com", password := "h1", role := Role.candidate
    isBanned := false }

def dbW : DB := { users := [candW], jobs := [jobW], apps := [] }

/-- Witness for C1 at a concrete state: the candidate's first application to
the Active job j1 is created with status pending and appliedAt 5. -/
theorem applyForJob_three_checks_then_create_witness :
    applyForJob dbW candW ⟨some "j1", some "I am interested", some "cv-url"⟩ 5 "a1"
      = .ok ({ users := [candW], jobs := [jobW]
               apps := [⟨"a1", "j1", "c1", some "I am interested", some "cv-url",
                         AppStatus.pending, 5⟩] },
             ⟨"a1", "j1", "c1", some "I am interested", some "cv-url",
              AppStatus.pending, 5⟩) := by
  have h := (applyForJob_three_checks_then_create dbW candW "j1" "I am interested"
    "cv-url" 5 "a1" (by decide) (by decide) (by decide) rfl).2.2.2 jobW
    (by decide) rfl (by decide)
  simpa [dbW] using h

/-! ## Identity Resolver (src/middlewares/auth.ts, authenticate) -/

/-- The authenticate middleware, translated with the JWT primitive abstracted
as a verifier function: `verify tok = some uid` models jwt.verify succeeding
(valid signature, unexpired) and yielding that subject id, `none` models any
verification failure (the catch block maps every non-AuthenticationError
throw to the same Invalid token error).  On success the resolved user is
returned, modelling req.user being set. -/
def authenticate (db : DB) (header : Option String)
    (verify : String → Option Id) : Except Err UserR :=
  match header with
  | none => .error (.AuthenticationError "Access denied. No token provided.")
  | some tok =>
    match verify tok with
    | none => .error (.AuthenticationError "Invalid token.")
    | some uid =>
      match db.users.find? (fun u => u.id == uid) with
      | none => .error (.AuthenticationError "Invalid token.")
      | some user =>
        if user.isBanned then .error (.AuthenticationError "User is banned.")
        else .ok user

/-- C4: a banned user cannot authenticate — any token that verifies to a
banned user's id fails with the AuthenticationError for bans, even though the
token itself is valid; and authenticate never returns (attaches) a banned
principal. -/
theorem banned_user_never_authenticates (db : DB) (verify : String → Option Id) :
    (∀ tok u, verify tok = some u.id →
      db.users.find? (fun w => w.id == u.id) = some u → u.isBanned = true →
      authenticate db (some tok) verify
        = .error (.AuthenticationError "User is banned.")) ∧
    (∀ header u, authenticate db header verify = .ok u → u.isBanned = false) := by
  constructor
  · intro tok u hver hfind hban
    simp [authenticate, hver, hfind, hban]
  · intro header u hok
    unfold authenticate at hok
    split at hok
    · simp at hok
    · split at hok
      · simp at hok
      · split at hok
        · simp at hok
        · split at hok
          · simp at hok
          · rename_i w hb
            simp only [Except.ok.injEq] at hok
            rw [← hok]
            simpa using hb

def bannedW : UserR :=
  { id := "b1", email := "b@x.com", password := "h2", role := Role.candidate
    isBanned := true }

def dbAuthW : DB := { users := [bannedW, candW], jobs := [], apps := [] }

/-- A concrete token table: tok-b belongs to the banned user, tok-c to the
candidate. -/
def verifyW : String → Option Id := fun t =>
  if t = "tok-b" then some "b1" else if t = "tok-c" then some "c1" else none

/-- Witness for C4: the banned user's still-valid token is rejected with the
ban message, and a successful authentication yields an unbanned principal. -/
theorem banned_user_never_authenticates_witness :
    (authenticate dbAuthW (some "tok-b") verifyW
      = .error (.AuthenticationError "User is banned.")) ∧ candW.isBanned = false := by
  constructor
  · exact (banned_user_never_authenticates dbAuthW verifyW).1 "tok-b" bannedW
      (by decide) (by decide) (by decide)
  · exact (banned_user_never_authenticates dbAuthW verifyW).2 (some "tok-c") candW
      (by rfl)

/-! ## Job update and delete (src/controllers/jobController.ts) -/

/-- Partial update body of PUT /api/jobs/:id; findByIdAndUpdate applies only
the supplied fields. -/
structure JobUpdate where
  title : Option String
  description : Option String
  companyName : Option String
  location : Option String
  jobType : Option String
  salaryRange : Option (Option (Nat × Nat))
  skills : Option (List String)
  jobStatus : Option JobStatus
deriving DecidableEq, Repr

def applyUpdates (j : JobR) (u : JobUpdate) : JobR :=
  { j with
    title := u.title.getD j.title
    description := u.description.getD j.description
    companyName := u.companyName.getD j.companyName
    location := u.location.getD j.location
    jobType := u.jobType.getD j.jobType
    salaryRange := u.salaryRange.getD j.salaryRange
    skills := u.skills.getD j.skills
    jobStatus := u.jobStatus.getD j.jobStatus }

/-- Replace the first list element satisfying p by f of it (Mongo
findByIdAndUpdate touches the single document with that id). -/
def updateFirst (p : JobR → Bool) (f : JobR → JobR) : List JobR → List JobR
  | [] => []
  | j :: rest => if p j then f j :: rest else j :: updateFirst p f rest

/-- The updateJob handler: load the job, NotFoundError when absent,
AuthorizationError unless the principal owns it or is admin, otherwise apply
the update. -/
def updateJob (db : DB) (user : UserR) (id : Id) (updates : JobUpdate) :
    Except Err (DB × JobR) :=
  match db.jobs.find? (fun j => j.id == id) with
  | none => .error (.NotFoundError "Job not found")
  | some job =>
    if job.createdBy ≠ user.id ∧ user.role ≠ Role.admin then
      .error (.AuthorizationError "Not authorized to update this job")
    else
      .ok ({ db with jobs := updateFirst (fun j => j.id == id) (fun j => applyUpdates j updates) db.jobs },
           applyUpdates job updates)

/-- The deleteJob handler: load the job, NotFoundError when absent,
AuthorizationError unless owner or admin, then findByIdAndDelete the job and
deleteMany all applications whose jobId equals it. -/
def deleteJob (db : DB) (user : UserR) (id : Id) : Except Err DB :=
  match db.jobs.find? (fun j => j.id == id) with
  | none => .error (.NotFoundError "Job not found")
  | some job =>
    if job.createdBy ≠ user.id ∧ user.role ≠ Role.admin then
      .error (.AuthorizationError "Not authorized to delete this job")
    else
      .ok { db with jobs := db.jobs.eraseP (fun j => j.id == id)
                    apps := db.apps.filter (fun a => ! (a.jobId == id)) }

/-- C5: for an existing job, update and delete succeed exactly when the
principal is an admin or the job's creator; in every other case both fail
with AuthorizationError (and, the handlers being pure, the error branch
returns no new state, so the stored job and applications are untouched). -/
theorem ownership_gate_update_delete (db : DB) (user : UserR) (id : Id)
    (updates : JobUpdate) (job : JobR)
    (hfind : db.jobs.find? (fun j => j.id == id) = some job) :
    ((user.role = Role.admin ∨ job.createdBy = user.id) →
      updateJob db user id updates
        = .ok ({ db with jobs :=
                   updateFirst (fun j => j.id == id) (fun j => applyUpdates j updates) db.jobs },
               applyUpdates job updates) ∧
      deleteJob db user id
        = .ok { db with jobs := db.jobs.eraseP (fun j => j.id == id)
                        apps := db.apps.filter (fun a => ! (a.jobId == id)) }) ∧
    (¬ (user.role = Role.admin ∨ job.createdBy = user.id) →
      updateJob db user id updates
        = .error (.AuthorizationError "Not authorized to update this job") ∧
      deleteJob db user id
        = .error (.AuthorizationError "Not authorized to delete this job")) := by
  constructor
  · intro hok
    have hcond : ¬ (job.createdBy ≠ user.id ∧ user.role ≠ Role.admin) := by
      rcases hok with h | h
      · intro hc; exact hc.2 h
      · intro hc; exact hc.1 h
    constructor
    · simp [updateJob, hfind, hcond]
    · simp [deleteJob, hfind, hcond]
  · intro hko
    push_neg at hko
    have hcond : job.createdBy ≠ user.id ∧ user.role ≠ Role.admin :=
      ⟨hko.2, hko.1⟩
    constructor
    · simp [updateJob, hfind, hcond]
    · simp [deleteJob, hfind, hcond]

def jobO : JobR :=
  { id := "j1", title := "Backend Engineer", description := "Node work"
    companyName := "Acme", location := "Dhaka", jobType := "full-time"
    salaryRange := none, skills := [], createdBy := "e1"
    jobStatus := JobStatus.Active, createdAt := 1 }

def empB : UserR :=
  { id := "e2", email := "e2@x.com", password := "h3", role := Role.employer
    isBanned := false }

def adminO : UserR :=
  { id := "ad1", email := "admin@x.com", password := "h4", role := Role.admin
    isBanned := false }

def dbO : DB := { users := [empB, adminO], jobs := [jobO], apps := [] }

def updW : JobUpdate :=
  { title := some "Senior Backend Engineer", description := none
    companyName := none, location := none, jobType := none
    salaryRange := none, skills := none, jobStatus := none }

/-- Witness for C5: employer e2 can neither update nor delete the job owned
by e1, while the admin's delete succeeds. -/
theorem ownership_gate_update_delete_witness :
    (updateJob dbO empB "j1" updW
      = .error (.AuthorizationError "Not authorized to update this job")) ∧
    (deleteJob dbO empB "j1"
      = .error (.AuthorizationError "Not authorized to delete this job")) ∧
    (deleteJob dbO adminO "j1"
      = .ok { dbO with jobs := dbO.jobs.eraseP (fun j => j.id == "j1")
                       apps := dbO.apps.filter (fun a => ! (a.jobId == "j1")) }) := by
  have h1 := ownership_gate_update_delete dbO empB "j1" updW jobO (by rfl)
  have h2 := ownership_gate_update_delete dbO adminO "j1" updW jobO (by rfl)
  exact ⟨(h1.2 (by decide)).1, (h1.2 (by decide)).2, (h2.1 (Or.inl rfl)).2⟩

/-! ## Cascading deletion (src/controllers/adminController.ts, deleteUser) -/

/-- The deleteUser handler, lines 85-124: admin role gate, NotFoundError for
an unknown id, ValidationError for an admin target; for an employer target
the applications of all of their jobs are deleted, then the jobs themselves;
for a candidate target their applications are deleted; finally the user
record itself is removed. -/
def deleteUser (db : DB) (actor : UserR) (userId : Id) : Except Err DB :=
  if actor.role ≠ Role.admin then
    .error (.AuthorizationError "Only admins can delete users")
  else
    match db.users.find? (fun u => u.id == userId) with
    | none => .error (.NotFoundError "User not found")
    | some user =>
      if user.role = Role.admin then
        .error (.ValidationError "Cannot delete admin users")
      else
        let db1 :=
          if user.role = Role.employer then
            let jobIds := (db.jobs.filter (fun j => j.createdBy == userId)).map (fun j => j.id)
            { db with apps := db.apps.filter (fun a => ! jobIds.contains a.jobId)
                      jobs := db.jobs.filter (fun j => ! (j.createdBy == userId)) }
          else db
        let db2 :=
          if user.role = Role.candidate then
            { db1 with apps := db1.apps.filter (fun a => ! (a.candidateId == userId)) }
          else db1
        .ok { db2 with users := db2.users.eraseP (fun u => u.id == userId) }

/-- C3: cascade deletion preserves referential integrity — a successful job
deletion leaves no application referencing the deleted job id, and a
successful deletion of an employer-role user leaves no job created by them
and no application referencing any of their former jobs. -/
theorem cascade_preserves_referential_integrity (db : DB) (actor u : UserR)
    (jid uid : Id) :
    (∀ db1, deleteJob db actor jid = .ok db1 →
      db1.apps.all (fun a => ! (a.jobId == jid)) = true) ∧
    (db.users.find? (fun w => w.id == uid) = some u → u.role = Role.employer →
      ∀ db1, deleteUser db actor uid = .ok db1 →
        (db1.jobs.all (fun j => ! (j.createdBy == uid)) = true) ∧
        (∀ j ∈ db.jobs, j.createdBy = uid →
          db1.apps.all (fun a => ! (a.jobId == j.id)) = true)) := by
  constructor
  · intro db1 hdel
    unfold deleteJob at hdel
    split at hdel
    · simp at hdel
    · split at hdel
      · simp at hdel
      · simp only [Except.ok.injEq] at hdel
        rw [← hdel]
        simp [List.all_eq_true, List.mem_filter]
  · intro hfind hrole db1 hdel
    unfold deleteUser at hdel
    split at hdel
    · simp at hdel
    · rw [hfind] at hdel
      simp only at hdel
      rw [hrole] at hdel
      simp only [reduceCtorEq, if_false, reduceIte] at hdel
      simp only [Except.ok.injEq] at hdel
      rw [← hdel]
      constructor
      · simp [List.all_eq_true, List.mem_filter]
      · intro j hj hcreated
        simp [List.all_eq_true, List.mem_filter]
        intro a _
        by_cases heq : a.jobId = j.id
        · exact Or.inl ⟨j, hj, hcreated, heq.symm⟩
        · exact Or.inr heq

def empE1 : UserR :=
  { id := "e1", email := "e1@x.com", password := "h5", role := Role.employer
    isBanned := false }

def jobJ2 : JobR :=
  { id := "j2", title := "Frontend Engineer", description := "React work"
    companyName := "Acme", location := "Dhaka", jobType := "part-time"
    salaryRange := some (10, 20), skills := ["react"], createdBy := "e1"
    jobStatus := JobStatus.Active, createdAt := 2 }

def appA1 : AppR := ⟨"a1", "j1", "c1", some "cl1", some "r1", AppStatus.pending, 3⟩
def appA2 : AppR := ⟨"a2", "j1", "c2", some "cl2", some "r2", AppStatus.pending, 4⟩
def appA3 : AppR := ⟨"a3", "j2", "c1", some "cl3", some "r3", AppStatus.accepted, 5⟩

def dbC3 : DB :=
  { users := [empE1, adminO, candW], jobs := [jobO, jobJ2]
    apps := [appA1, appA2, appA3] }

def dbC3afterJob : DB :=
  { users := [empE1, adminO, candW], jobs := [jobJ2], apps := [appA3] }

def dbC3afterUser : DB :=
  { users := [adminO, candW], jobs := [], apps := [] }

/-- Witness for C3: deleting job j1 removes its two applications, and
deleting employer e1 removes both their jobs and all three applications. -/
theorem cascade_preserves_referential_integrity_witness :
    (deleteJob dbC3 adminO "j1" = .ok dbC3afterJob ∧
      dbC3afterJob.apps.all (fun a => ! (a.jobId == "j1")) = true) ∧
    (deleteUser dbC3 adminO "e1" = .ok dbC3afterUser ∧
      dbC3afterUser.jobs.all (fun j => ! (j.createdBy == "e1")) = true ∧
      dbC3afterUser.apps.all (fun a => ! (a.jobId == "j1")) = true) := by
  have hd1 : deleteJob dbC3 adminO "j1" = .ok dbC3afterJob := by rfl
  have hd2 : deleteUser dbC3 adminO "e1" = .ok dbC3afterUser := by rfl
  have h := cascade_preserves_referential_integrity dbC3 adminO empE1 "j1" "e1"
  have h2 := h.2 (by rfl) rfl dbC3afterUser hd2
  exact ⟨⟨hd1, h.1 dbC3afterJob hd1⟩,
         ⟨hd2, h2.1, h2.2 jobO (by simp [dbC3]) rfl⟩⟩

/-! ## Admin bootstrap (src/utils/handshake.ts, handshake) -/

inductive HandshakeOutcome
  | existing
  | created
  | fatalExit
deriving DecidableEq, Repr

/-- The handshake routine: if some admin-role user exists it returns without
touching the database; otherwise, when the externally supplied credentials
are present (JS-truthy), it attempts to save a single admin user built from
them with a hashed password.  The save is subject to the unique index that
UserSchema declares on email, and the routine does no email pre-check, so
when a stored user already holds the supplied email the save throws a
duplicate-key error and the surrounding catch calls process.exit(1) —
modelled, like the missing-credentials branch, as the fatalExit outcome with
the state unchanged. -/
def handshake (db : DB) (adminEmail adminPassword : Option String)
    (hash : String → String) (newId : Id) : DB × HandshakeOutcome :=
  match db.users.find? (fun u => u.role == Role.admin) with
  | some _ => (db, .existing)
  | none =>
    if ¬ jsTruthy adminEmail ∨ ¬ jsTruthy adminPassword then
      (db, .fatalExit)
    else
      let e := adminEmail.getD ""
      let p := adminPassword.getD ""
      if db.users.any (fun u => u.email == e) then
        (db, .fatalExit)
      else
        ({ db with users := db.users ++ [⟨newId, e, hash p, Role.admin, false⟩] },
         .created)

def adminCount (db : DB) : Nat :=
  db.users.countP (fun u => u.role == Role.admin)

/-- Sequential repetition of the bootstrap, one fresh candidate id per run. -/
def handshakeIter (adminEmail adminPassword : Option String)
    (hash : String → String) (ids : Nat → Id) : Nat → DB → DB
  | 0, db => db
  | n + 1, db =>
    (handshake (handshakeIter adminEmail adminPassword hash ids n db)
      adminEmail adminPassword hash (ids n)).1

theorem handshake_existing (db : DB) (e p : Option String)
    (hash : String → String) (nid : Id) (h : 0 < adminCount db) :
    handshake db e p hash nid = (db, HandshakeOutcome.existing) := by
  unfold handshake
  cases hf : db.users.find? (fun u => u.role == Role.admin) with
  | some u => rfl
  | none =>
    exfalso
    rw [List.find?_eq_none] at hf
    obtain ⟨u, hu, hp⟩ := List.countP_pos_iff.mp h
    exact absurd hp (by simpa using hf u hu)

theorem handshake_creates (db : DB) (e p : String) (hash : String → String)
    (nid : Id) (hc : adminCount db = 0)
    (hfresh : db.users.any (fun u => u.email == e) = false)
    (he : e ≠ "") (hp : p ≠ "") :
    handshake db (some e) (some p) hash nid
      = ({ db with users := db.users ++ [⟨nid, e, hash p, Role.admin, false⟩] },
         HandshakeOutcome.created) := by
  unfold handshake
  have hf : db.users.find? (fun u => u.role == Role.admin) = none := by
    rw [List.find?_eq_none]
    intro u hu
    simpa using List.countP_eq_zero.mp hc u hu
  rw [hf]
  simp [jsTruthy, he, hp, hfresh]

/-- C6 amended: with an admin already present the bootstrap returns the
state unchanged, and starting from a state with no admin, in which no stored
user already holds the supplied admin email (otherwise the save is rejected
by the unique email index and the routine exits fatally), any positive
number of sequential runs yields exactly one admin-role account, built from
the supplied credentials, never a second one. -/
theorem handshake_idempotent_single_admin (db : DB) (e p : String)
    (hash : String → String) (ids : Nat → Id) :
    (∀ nid, 0 < adminCount db →
      handshake db (some e) (some p) hash nid = (db, HandshakeOutcome.existing)) ∧
    (adminCount db = 0 → db.users.any (fun u => u.email == e) = false →
      e ≠ "" → p ≠ "" → ∀ n, 1 ≤ n →
      adminCount (handshakeIter (some e) (some p) hash ids n db) = 1 ∧
      (handshakeIter (some e) (some p) hash ids n db).users.all
        (fun u => ! (u.role == Role.admin) || (u.email == e && u.password == hash p))
        = true) := by
  constructor
  · intro nid h
    exact handshake_existing db (some e) (some p) hash nid h
  · intro hc hfresh he hp n hn
    obtain ⟨m, rfl⟩ : ∃ m, n = m + 1 := ⟨n - 1, (Nat.succ_pred_eq_of_pos hn).symm⟩
    clear hn
    induction m with
    | zero =>
      simp only [handshakeIter]
      rw [handshake_creates db e p hash (ids 0) hc hfresh he hp]
      dsimp only
      constructor
      · unfold adminCount at hc ⊢
        simp [List.countP_append, hc]
      · have hnone := List.countP_eq_zero.mp hc
        simp only [List.all_eq_true]
        intro u hu
        rcases List.mem_append.mp hu with hmem | hmem
        · have := hnone u hmem
          simp only [Bool.or_eq_true, Bool.not_eq_eq_eq_not, Bool.not_true]
          left
          simpa using this
        · simp only [List.mem_singleton] at hmem
          subst hmem
          simp
    | succ k ih =>
      simp only [handshakeIter] at ih ⊢
      rw [handshake_existing _ (some e) (some p) hash (ids (k + 1)) (by rw [ih.1]; exact Nat.one_pos)]
      exact ih

def dbH : DB := { users := [candW, empB], jobs := [], apps := [] }

def hashH : String → String := fun s => String.append s "#h"

def idsH : Nat → Id := fun n => String.append "adm" (Nat.repr n)

/-- Witness for the amended C6: with an admin already present the bootstrap
changes nothing, and three sequential runs on an admin-less state whose
users hold other emails leave exactly one admin account carrying the
supplied credentials. -/
theorem handshake_idempotent_single_admin_witness :
    (handshake dbO (some "root@x.com") (some "pw123456") hashH "x"
      = (dbO, HandshakeOutcome.existing)) ∧
    (adminCount (handshakeIter (some "root@x.com") (some "pw123456") hashH idsH 3 dbH) = 1 ∧
      (handshakeIter (some "root@x.com") (some "pw123456") hashH idsH 3 dbH).users.all
        (fun u => ! (u.role == Role.admin)
          || (u.email == "root@x.com" && u.password == hashH "pw123456")) = true) := by
  constructor
  · exact (handshake_idempotent_single_admin dbO "root@x.com" "pw123456" hashH idsH).1
      "x" (by decide)
  · exact (handshake_idempotent_single_admin dbH "root@x.com" "pw123456" hashH idsH).2
      (by decide) (by decide) (by decide) (by decide) 3 (by decide)

def userTaken : UserR := ⟨"u9", "root@x.com", "h9", Role.candidate, false⟩

def dbTaken : DB := { users := [userTaken], jobs := [], apps := [] }

/-- C6 counterexample: from the reachable admin-less state in which a
candidate user already registered the supplied admin email, the bootstrap's
save is rejected by the unique index on User.email and the routine exits
fatally with the state unchanged — zero admin accounts are created, and
three sequential reruns still leave zero — so running the routine from a
state with no admin does not always result in exactly one admin-role
account. -/
theorem handshake_duplicate_email_exits_without_admin :
    adminCount dbTaken = 0 ∧
    handshake dbTaken (some "root@x.com") (some "pw123456") hashH "adm0"
      = (dbTaken, HandshakeOutcome.fatalExit) ∧
    adminCount (handshakeIter (some "root@x.com") (some "pw123456") hashH idsH 3 dbTaken)
      = 0 :=
  ⟨rfl, rfl, rfl⟩

/-! ## Registration (src/controllers/authController.ts, register) -/

/-- The register handler: User.findOne on the exact email string (Mongo
string equality, no collation and no lowercasing in the schema), ConflictError
when found, otherwise the new user is stored with the hashed password. -/
def register (db : DB) (email pw : String) (role : Role)
    (hash : String → String) (newId : Id) : Except Err (DB × UserR) :=
  match db.users.find? (fun u => u.email == email) with
  | some _ => .error (.ConflictError "User already exists")
  | none =>
    let u : UserR := ⟨newId, email, hash pw, role, false⟩
    .ok ({ db with users := db.users ++ [u] }, u)

/-- Executable ASCII lowercasing, used to state case-insensitive email
comparison. -/
def lowerChar (c : Char) : Char :=
  if 65 ≤ c.toNat ∧ c.toNat ≤ 90 then Char.ofNat (c.toNat + 32) else c

def lowerStr (s : String) : String := String.mk (s.data.map lowerChar)

def userA : UserR := ⟨"u1", "a@x.com", "h7", Role.candidate, false⟩

def dbC7 : DB := { users := [userA], jobs := [], apps := [] }

/-- C7 counterexample: with a@x.com stored, registering A@X.com — the same
letters in a different case — succeeds instead of failing with
ConflictError, leaving two stored users whose emails coincide under
case-insensitive comparison; email uniqueness is therefore not
case-insensitive. -/
theorem register_case_variant_not_rejected :
    register dbC7 "A@X.com" "secret1" Role.employer hashH "u2"
      = .ok ({ users := [userA, ⟨"u2", "A@X.com", hashH "secret1", Role.employer, false⟩]
               jobs := [], apps := [] },
             ⟨"u2", "A@X.com", hashH "secret1", Role.employer, false⟩) ∧
    lowerStr "A@X.com" = lowerStr "a@x.com" := ⟨rfl, by decide⟩

/-- C7 amended: user email uniqueness is global across roles but
case-sensitive — registration fails with ConflictError exactly on an exact
(case-sensitive) email match, leaving the user collection unchanged in the
error branch, and succeeds otherwise. -/
theorem register_exact_email_uniqueness (db : DB) (email pw : String)
    (role : Role) (hash : String → String) (nid : Id) :
    ((∃ u ∈ db.users, u.email = email) →
      register db email pw role hash nid = .error (.ConflictError "User already exists")) ∧
    (db.users.all (fun u => ! (u.email == email)) = true →
      register db email pw role hash nid
        = .ok ({ db with users := db.users ++ [⟨nid, email, hash pw, role, false⟩] },
               ⟨nid, email, hash pw, role, false⟩)) := by
  constructor
  · rintro ⟨u, hu, he⟩
    unfold register
    cases hf : db.users.find? (fun v => v.email == email) with
    | some v => rfl
    | none =>
      exfalso
      rw [List.find?_eq_none] at hf
      exact absurd (by simp [he] : (u.email == email) = true) (by simpa using hf u hu)
  · intro hall
    unfold register
    have hf : db.users.find? (fun v => v.email == email) = none := by
      rw [List.find?_eq_none]
      intro v hv
      simpa using List.all_eq_true.mp hall v hv
    rw [hf]

/-- Witness for the amended C7: duplicating a@x.com exactly is rejected,
while a fresh address b@x.com is stored. -/
theorem register_exact_email_uniqueness_witness :
    register dbC7 "a@x.com" "secret1" Role.employer hashH "u2"
      = .error (.ConflictError "User already exists") ∧
    register dbC7 "b@x.com" "secret1" Role.employer hashH "u2"
      = .ok ({ users := [userA, ⟨"u2", "b@x.com", hashH "secret1", Role.employer, false⟩]
               jobs := [], apps := [] },
             ⟨"u2", "b@x.com", hashH "secret1", Role.employer, false⟩) := by
  constructor
  · exact (register_exact_email_uniqueness dbC7 "a@x.com" "secret1" Role.employer
      hashH "u2").1 ⟨userA, by simp [dbC7], rfl⟩
  · exact (register_exact_email_uniqueness dbC7 "b@x.com" "secret1" Role.employer
      hashH "u2").2 (by decide)

/-! ## Schema-level constraints (src/models) -/

/-- A mongoose path declaration: its name, whether it is required, and
whether it carries a single-field unique index option. -/
structure FieldDecl where
  name : String
  required : Bool
  uniqueIndex : Bool
deriving DecidableEq, Repr

/-- The paths of the ApplicationSchema exactly as the source declares them:
jobId and candidateId required references, coverLetter and resume plain
optional String paths, applicationStatus and appliedAt defaulted; no path
carries a unique option. -/
def applicationSchemaFields : List FieldDecl :=
  [⟨"jobId", true, false⟩, ⟨"candidateId", true, false⟩,
   ⟨"coverLetter", false, false⟩, ⟨"resume", false, false⟩,
   ⟨"applicationStatus", false, false⟩, ⟨"appliedAt", false, false⟩]

/-- Compound (multi-path) indexes declared on the ApplicationSchema, each a
path list with its unique flag. The source declares none — there is no
schema.index call and no compound index option anywhere in the model
file. -/
def applicationSchemaCompoundIndexes : List (List String × Bool) := []

def hasUniqueCompoundIndex (idxs : List (List String × Bool))
    (fields : List String) : Bool :=
  idxs.any (fun i => i.1 == fields && i.2)

/-- Storage-level insert of an application document: the document store
rejects an insert only when it violates a declared unique index, so with no
unique compound index on (jobId, candidateId) in the schema every insert is
accepted. -/
def storageInsertApp (db : DB) (a : AppR) : Except Err DB :=
  if hasUniqueCompoundIndex applicationSchemaCompoundIndexes ["jobId", "candidateId"]
      && db.apps.any (fun b => b.jobId == a.jobId && b.candidateId == a.candidateId) then
    .error (.ConflictError "duplicate key")
  else
    .ok { db with apps := db.apps ++ [a] }

def appDup : AppR := ⟨"a9", "j1", "c1", some "cl9", some "r9", AppStatus.pending, 9⟩

/-- C2: the ApplicationSchema carries no storage-level unique compound
constraint on (jobId, candidateId) — no path-level unique option and no
compound index declaration — so once the findOne pre-check in the handler is
bypassed (as two concurrent requests can) the store accepts a duplicate
(jobId, candidateId) pair, reaching a state with two applications for the
same job and candidate. -/
theorem application_unique_index_missing :
    hasUniqueCompoundIndex applicationSchemaCompoundIndexes ["jobId", "candidateId"] = false ∧
    applicationSchemaFields.all (fun f => ! f.uniqueIndex) = true ∧
    storageInsertApp { users := [], jobs := [], apps := [appA1] } appDup
      = .ok { users := [], jobs := [], apps := [appA1, appDup] } ∧
    [appA1, appDup].countP (fun b => b.jobId == "j1" && b.candidateId == "c1") = 2 :=
  ⟨rfl, rfl, rfl, rfl⟩

/-! ## Job-scoped application listing (applicationController, getJobApplications) -/

/-- The getJobApplications handler: role gate allowing employer and admin,
then — for employers only — load the job (NotFoundError when absent) and
compare ownership; the applications of the requested job id are then
listed.  An admin principal skips the entire employer block, including the
existence check. -/
def getJobApplications (db : DB) (user : UserR) (jobId : Id) :
    Except Err (List AppR) :=
  if user.role ≠ Role.employer ∧ user.role ≠ Role.admin then
    .error (.AuthorizationError "Only employers can view job applications")
  else if user.role = Role.employer then
    match db.jobs.find? (fun j => j.id == jobId) with
    | none => .error (.NotFoundError "Job not found")
    | some job =>
      if job.createdBy ≠ user.id then
        .error (.AuthorizationError "Not authorized to view applications for this job")
      else
        .ok (db.apps.filter (fun a => a.jobId == jobId))
  else
    .ok (db.apps.filter (fun a => a.jobId == jobId))

/-- C9 counterexample: an admin — allowed through the role gate — requesting the
applications of a nonexistent job id receives a successful empty listing,
not NotFoundError, because the existence check runs only inside the
employer branch. -/
theorem admin_nonexistent_job_listing_not_notfound :
    dbO.jobs.find? (fun j => j.id == "ghost") = none ∧
    adminO.role = Role.admin ∧
    getJobApplications dbO adminO "ghost" = .ok [] := ⟨rfl, rfl, rfl⟩

/-- C9 amended: for an employer-role principal the job-existence check runs
first and a nonexistent job id fails with NotFoundError before any ownership
comparison; an admin-role principal skips both checks and receives the
(possibly empty) listing for any job id. -/
theorem job_applications_existence_before_ownership (db : DB) (user : UserR)
    (jobId : Id) :
    (user.role = Role.employer → db.jobs.find? (fun j => j.id == jobId) = none →
      getJobApplications db user jobId = .error (.NotFoundError "Job not found")) ∧
    (user.role = Role.admin →
      getJobApplications db user jobId
        = .ok (db.apps.filter (fun a => a.jobId == jobId))) := by
  constructor
  · intro hrole hfind
    simp [getJobApplications, hrole, hfind]
  · intro hrole
    simp [getJobApplications, hrole]

/-- Witness for the amended C9: employer e2 asking for absent job j9 sees
not-found, the admin listing job j1 gets its two applications. -/
theorem job_applications_existence_before_ownership_witness :
    getJobApplications dbH empB "j9" = .error (.NotFoundError "Job not found") ∧
    getJobApplications dbC3 adminO "j1"
      = .ok (dbC3.apps.filter (fun a => a.jobId == "j1")) := by
  constructor
  · exact (job_applications_existence_before_ownership dbH empB "j9").1 rfl rfl
  · exact (job_applications_existence_before_ownership dbC3 adminO "j1").2 rfl

/-! ## Public job reads (jobController, getAllJobs and getJobById) -/

def listIsPrefix : List Char → List Char → Bool
  | [], _ => true
  | _ :: _, [] => false
  | a :: as, b :: bs => a == b && listIsPrefix as bs

def listIsInfix (pat : List Char) : List Char → Bool
  | [] => listIsPrefix pat []
  | b :: bs => listIsPrefix pat (b :: bs) || listIsInfix pat bs

/-- Case-insensitive substring containment, modelling a Mongo regex match
with the i option on a plain search string. -/
def containsCI (hay pat : String) : Bool :=
  listIsInfix (lowerStr pat).data (lowerStr hay).data

/-- Query parameters of the public GET /api/jobs listing. -/
structure JobQuery where
  search : Option String
  location : Option String
  jobType : Option String
deriving DecidableEq, Repr

/-- The filter built by the public getAllJobs handler: jobStatus Active is
unconditionally part of the query, search matches title, description or
companyName case-insensitively, location matches case-insensitively, and
jobType matches exactly; each filter applies only when the parameter is
JS-truthy. -/
def jobMatchesQuery (q : JobQuery) (j : JobR) : Bool :=
  (j.jobStatus == JobStatus.Active)
  && (if jsTruthy q.search then
        (containsCI j.title (q.search.getD "")
          || containsCI j.description (q.search.getD "")
          || containsCI j.companyName (q.search.getD ""))
      else true)
  && (if jsTruthy q.location then containsCI j.location (q.location.getD "") else true)
  && (if jsTruthy q.jobType then j.jobType == q.jobType.getD "" else true)

/-- The public listing: filter, sort by createdAt descending, paginate with
skip (page-1)*limit and the limit. -/
def getAllJobsPublic (db : DB) (q : JobQuery) (page limit : Nat) : List JobR :=
  ((((db.jobs.filter (jobMatchesQuery q)).mergeSort
      (fun a b => Nat.ble b.createdAt a.createdAt)).drop ((page - 1) * limit)).take limit)

/-- The public getJobById handler: any existing job is returned, whatever
its jobStatus; only an absent id produces NotFoundError. -/
def getJobById (db : DB) (id : Id) : Except Err JobR :=
  match db.jobs.find? (fun j => j.id == id) with
  | none => .error (.NotFoundError "Job not found")
  | some job => .ok job

/-- C10: public job reads are asymmetric about jobStatus — every job the
public listing returns is Active, for any search, location, jobType and
pagination parameters, while fetch-by-id returns any existing job, Inactive
included, and fails with NotFoundError exactly when the id is absent. -/
theorem public_job_reads_asymmetric (db : DB) (q : JobQuery)
    (page limit : Nat) (id : Id) :
    ((getAllJobsPublic db q page limit).all
      (fun j => j.jobStatus == JobStatus.Active) = true) ∧
    (∀ job, db.jobs.find? (fun j => j.id == id) = some job →
      getJobById db id = .ok job) ∧
    (db.jobs.find? (fun j => j.id == id) = none →
      getJobById db id = .error (.NotFoundError "Job not found")) := by
  refine ⟨?_, ?_, ?_⟩
  · simp only [List.all_eq_true]
    intro j hj
    have h1 := List.mem_of_mem_take hj
    have h2 := List.mem_of_mem_drop h1
    have h3 := (List.mergeSort_perm (db.jobs.filter (jobMatchesQuery q))
      (fun a b => Nat.ble b.createdAt a.createdAt)).mem_iff.mp h2
    have h4 := (List.mem_filter.mp h3).2
    unfold jobMatchesQuery at h4
    simp only [Bool.and_eq_true] at h4
    exact h4.1.1.1
  · intro job hfind
    simp [getJobById, hfind]
  · intro hfind
    simp [getJobById, hfind]

def jobI : JobR :=
  { id := "j3", title := "Closed Role", description := "archived"
    companyName := "Acme", location := "Dhaka", jobType := "full-time"
    salaryRange := none, skills := [], createdBy := "e1"
    jobStatus := JobStatus.Inactive, createdAt := 3 }

def dbPub : DB := { users := [], jobs := [jobO, jobI], apps := [] }

/-- Witness for C10: with an Active and an Inactive job stored, the
unfiltered first page lists only the Active one, while fetch-by-id returns
the Inactive job and an unknown id is not-found. -/
theorem public_job_reads_asymmetric_witness :
    (getAllJobsPublic dbPub ⟨none, none, none⟩ 1 10).all
      (fun j => j.jobStatus == JobStatus.Active) = true ∧
    getJobById dbPub "j3" = .ok jobI ∧
    getJobById dbPub "ghost" = .error (.NotFoundError "Job not found") := by
  refine ⟨(public_job_reads_asymmetric dbPub ⟨none, none, none⟩ 1 10 "j3").1, ?_, ?_⟩
  · exact (public_job_reads_asymmetric dbPub ⟨none, none, none⟩ 1 10 "j3").2.1 jobI rfl
  · exact (public_job_reads_asymmetric dbPub ⟨none, none, none⟩ 1 10 "ghost").2.2 rfl

/-! ## Required coverLetter and resume in the apply handler -/

/-- C8: contrary to the schema (which declares coverLetter and resume as
plain optional paths) and to the documented request shape (only jobId
required), the apply handler rejects a body missing either field with
ValidationError, even in a state where every other check would pass — the
candidate principal, the existing Active job and the absence of a prior
application are all satisfied by this input. -/
theorem applyForJob_rejects_missing_optional_fields :
    applyForJob dbW candW ⟨some "j1", none, some "cv-url"⟩ 5 "a1"
      = .error (.ValidationError "Cover letter is required") ∧
    applyForJob dbW candW ⟨some "j1", some "letter", none⟩ 5 "a1"
      = .error (.ValidationError "Resume is required") ∧
    (applicationSchemaFields.find? (fun f => f.name == "coverLetter")).map
      (fun f => f.required) = some false ∧
    (applicationSchemaFields.find? (fun f => f.name == "resume")).map
      (fun f => f.required) = some false :=
  ⟨rfl, rfl, rfl, rfl⟩

end JobPortal
